import Mathlib

set_option linter.unusedVariables false

/-!
# Shallow embedding of `src/fqdns.py`

This file embeds the response-collection and forgery-classification engine of
`fqdns.py` (functions `parse_at`, `resolve_over_udp`, `pick_responses`,
`is_right_response`, `list_ipv4_addresses`, `discover`, `discover_once`).

Modelling conventions:

* A decoded DNS response (`dpkt.dns.DNS(sock.recv(512))`) is a `Response`
  holding its `id` and answer records `an`; only these fields are read by the
  embedded code.  The DNS wire codec itself (dpkt) is an external collaborator
  and is not modelled beyond the two Python-level behaviours the source
  exploits on a decoded packet: its `len()` (`Response.pyLen`) and the fact
  that iterating or integer-indexing a `dpkt.Packet` raises `TypeError`.
* The socket/deadline loop of `pick_responses` is modelled by a finite list of
  `NetEvent`s: the sequence of outcomes of `select.select` observed strictly
  before the deadline, in arrival order.  Exhaustion of the list stands for
  deadline expiry (both the `remaining_timeout <= 0` exit of the `while` loop
  and an empty `ins` from `select`), which in the source returns the
  accumulated `picked_responses` in both cases.
* Python exceptions are `Except PyErr`; Python's untyped list results are
  `ResolveResult`, where the empty flat list and the empty nested list are
  collapsed into the single constructor `pyEmptyList`, since they are the same
  Python value `[]`.
* Python `set`s of strings are `Finset String`.
-/

/-- A Python exception escaping the embedded code. -/
inductive PyErr where
  | typeError : PyErr
  | exception : String → PyErr
  | valueError : String → PyErr
deriving DecidableEq

/-- `dpkt.dns.DNS_A`, the A-record type code. -/
def DNS_A : Nat := 1

/-- One DNS resource record as decoded by dpkt: its record `type` and its
`rdata` payload, which for A records is the 4-byte address in network byte
order, modelled as the corresponding big-endian natural number. -/
structure Answer where
  type : Nat
  rdata : Nat
deriving DecidableEq

/-- A decoded DNS response: `dpkt.dns.DNS` restricted to the fields the
embedded code reads (`id` and the answer section `an`). -/
structure Response where
  id : Nat
  an : List Answer
deriving DecidableEq

/-- `socket.inet_ntoa` on a 4-byte big-endian payload: dotted-quad rendering
of the four bytes. -/
def inet_ntoa (n : Nat) : String :=
  toString (n / 16777216 % 256) ++ "." ++ toString (n / 65536 % 256) ++ "." ++
    toString (n / 256 % 256) ++ "." ++ toString (n % 256)

/-- `list_ipv4_addresses(response)`: the addresses of the A-type answers of
the response, in answer order (the Python list comprehension filters on
`dpkt.dns.DNS_A == answer.type` and maps `socket.inet_ntoa(answer.rdata)`). -/
def list_ipv4_addresses (response : Response) : List String :=
  (response.an.filter (fun answer => DNS_A == answer.type)).map
    (fun answer => inet_ntoa answer.rdata)

/-- `is_right_response(response, wrong_answers)`. -/
def is_right_response (response : Response) (wrong_answers : Finset String) : Bool :=
  let answers := list_ipv4_addresses response
  if answers.isEmpty then false
  else if 1 < answers.length then true
  else !(answers.any (fun answer => decide (answer ∈ wrong_answers)))

/-- One outcome of `select.select([sock], [], [sock], remaining_timeout)`
observed before the deadline: either a datagram is readable and decodes to a
`Response`, or the socket is reported in the error set. -/
inductive NetEvent where
  | recv : Response → NetEvent
  | sockError : NetEvent
deriving DecidableEq

/-- What `pick_responses` returns to `resolve_over_udp`: the `pick-first` and
`pick-right` arms return the decoded `Response` object itself (`return
response`), every other exit returns the accumulated Python list
`picked_responses`. -/
inductive PickResult where
  | bare : Response → PickResult
  | list : List Response → PickResult
deriving DecidableEq

/-- The body of the `while remaining_timeout > 0` loop of `pick_responses`,
one recursive call per `select` outcome; `picked` is the running
`picked_responses` accumulator. -/
def pickLoop (strategy : String) (wrong_answers : Finset String) :
    List NetEvent → List Response → Except PyErr PickResult
  | [], picked => .ok (.list picked)
  | .sockError :: _, _ => .error (.exception "failed to read dns response")
  | .recv response :: rest, picked =>
    if "pick-first" = strategy then .ok (.bare response)
    else if "pick-later" = strategy then
      pickLoop strategy wrong_answers rest [response]
    else if "pick-right" = strategy then
      if is_right_response response wrong_answers then .ok (.bare response)
      else pickLoop strategy wrong_answers rest picked
    else if "pick-right-later" = strategy then
      if is_right_response response wrong_answers then
        pickLoop strategy wrong_answers rest [response]
      else pickLoop strategy wrong_answers rest picked
    else if "pick-all" = strategy then
      pickLoop strategy wrong_answers rest (picked ++ [response])
    else .error (.exception ("unsupported strategy: " ++ strategy))

/-- `pick_responses(sock, timeout, strategy, wrong_answers)`: the collector
loop started with an empty `picked_responses`, driven by the events delivered
before the deadline. -/
def pick_responses (events : List NetEvent) (strategy : String)
    (wrong_answers : Finset String) : Except PyErr PickResult :=
  pickLoop strategy wrong_answers events []

/-- The Python value returned by `resolve_over_udp`: the empty list, a flat
list of address strings, or a list of address lists.  `pyEmptyList` is the
single Python value `[]`, which is both the empty flat and the empty nested
list; `flat`/`nested` are only built non-empty by the shaping code. -/
inductive ResolveResult where
  | pyEmptyList : ResolveResult
  | flat : List String → ResolveResult
  | nested : List (List String) → ResolveResult
deriving DecidableEq

/-- Build the Python value of a flat address list, identifying the empty flat
list with the Python value `[]`. -/
def mkFlat : List String → ResolveResult
  | [] => .pyEmptyList
  | addrs => .flat addrs

/-- Python `len()` of a decoded `dpkt.dns.DNS` object: `dpkt.Packet.__len__`
is the fixed header length plus the length of the leftover `data`; the DNS
header is 12 bytes and `DNS.unpack` leaves `data` empty after a successful
parse, so every decoded response has `len` 12. -/
def Response.pyLen (_ : Response) : Nat := 12

/-- The result shaping of `resolve_over_udp` (its `len(responses) == 1` /
`len(responses) > 1` / `else` chain) applied to what `pick_responses`
returned.  When `pick_responses` returned a bare `Response` (pick-first /
pick-right early return), `len(responses)` is the packet length 12, and both
the `responses[0]` lookup of the `== 1` branch and the `for response in
responses` iteration of the `> 1` branch raise `TypeError`, because
`dpkt.Packet.__getitem__` calls `getattr` with an integer key. -/
def shapeResult : PickResult → Except PyErr ResolveResult
  | .bare r =>
    if r.pyLen == 1 then .error .typeError
    else if 1 < r.pyLen then .error .typeError
    else .ok .pyEmptyList
  | .list [r] => .ok (mkFlat (list_ipv4_addresses r))
  | .list [] => .ok .pyEmptyList
  | .list rs => .ok (.nested (rs.map list_ipv4_addresses))

instance {ε α : Type} [DecidableEq ε] [DecidableEq α] : DecidableEq (Except ε α) := fun x y =>
  match x, y with
  | .ok a, .ok b => if h : a = b then .isTrue (by rw [h]) else .isFalse (by simp [h])
  | .error a, .error b => if h : a = b then .isTrue (by rw [h]) else .isFalse (by simp [h])
  | .ok _, .error _ => .isFalse (by simp)
  | .error _, .ok _ => .isFalse (by simp)

/-- The observable outcome of one `resolve_over_udp` call: whether the query
datagram was sent (`sock.sendto` on line 82, which precedes the collector loop
unconditionally), and the returned value or escaping exception. -/
structure UdpRun where
  querySent : Bool
  result : Except PyErr ResolveResult
deriving DecidableEq

/-- `resolve_over_udp(domain, server_ip, server_port, timeout, strategy,
wrong_answers)`: send the query, collect responses until the deadline, shape
the result.  The deadline/socket pair is abstracted by `events` (see the file
header); `domain`, `server_ip` and `server_port` only parameterise the I/O and
do not influence the computation on the delivered events. -/
def resolve_over_udp (domain server_ip : String) (server_port : Int)
    (strategy : String) (wrong_answers : Finset String)
    (events : List NetEvent) : UdpRun :=
  { querySent := true
    result :=
      match pick_responses events strategy wrong_answers with
      | .error e => .error e
      | .ok picked => shapeResult picked }

/-- Python `str.split(sep)` for a one-character separator, on the character
list of the string: no collapsing of empty fields, so `"".split(c)` is
`[""]`, `"a:".split(c)` is `["a", ""]`, and the number of fields is one more
than the number of separator occurrences. -/
def splitOnChar (c : Char) : List Char → List (List Char)
  | [] => [[]]
  | x :: xs =>
    if x = c then [] :: splitOnChar c xs
    else
      match splitOnChar c xs with
      | [] => [[x]]
      | y :: ys => (x :: y) :: ys

/-- `at.split(sep)` as a list of strings. -/
def pySplit (s : String) (c : Char) : List String :=
  (splitOnChar c s.toList).map (fun cs => ⟨cs⟩)

/-- The whitespace stripping Python `int()` applies to its string argument
before parsing. -/
def stripChars (l : List Char) : List Char :=
  ((l.dropWhile Char.isWhitespace).reverse.dropWhile Char.isWhitespace).reverse

/-- Python `int(s)` in base 10: strip surrounding whitespace, allow one
leading sign, then require a non-empty run of decimal digits; `none` models
the `ValueError` raised on anything else. -/
def pyToInt (s : String) : Option Int :=
  let t := stripChars s.toList
  let signAndDigits : Int × List Char :=
    match t with
    | '-' :: rest => (-1, rest)
    | '+' :: rest => (1, rest)
    | _ => (1, t)
  if signAndDigits.2.isEmpty then none
  else if signAndDigits.2.all Char.isDigit then
    some (signAndDigits.1 *
      (signAndDigits.2.foldl (fun n c => 10 * n + (c.toNat - 48)) 0 : Nat))
  else none

/-- `parse_at(at)`: if the string contains a colon (Python `':' in at` is
character membership), split on `':'` and unpack into exactly two parts — a
three-or-more-way split raises `ValueError` from the unpacking, and a
non-integer port raises `ValueError` from `int()`; otherwise the whole string
is the address with default port 53. -/
def parse_at (at_ : String) : Except PyErr (String × Int) :=
  if ':' ∈ at_.toList then
    match pySplit at_ ':' with
    | [server_ip, server_port] =>
      match pyToInt server_port with
      | some port => .ok (server_ip, port)
      | none => .error (.valueError "invalid literal for int() with base 10")
    | _ => .error (.valueError "too many values to unpack")
  else
    .ok (at_, 53)

/-- The scan in the body of `discover_once` (its `contains_right_answer` test
and accumulation loop), applied to the Python list `responses_answers` that
`resolve_over_udp` returned.  On the empty list the `any` is false and nothing
accumulates.  On a flat list of address strings (the exactly-one-response
shape) Python's `len(answers)` is the string length and `set(answers)` the set
of its one-character substrings.  On a nested list, `len` and `set` act on
each response's address list as intended. -/
def scanWrongAnswers : ResolveResult → Finset String
  | .pyEmptyList => ∅
  | .flat addrs =>
    if addrs.any (fun s => 1 < s.length) then
      addrs.foldl
        (fun acc s =>
          if s.length = 1 then acc ∪ (s.toList.map Char.toString).toFinset else acc) ∅
    else ∅
  | .nested lists =>
    if lists.any (fun answers => 1 < answers.length) then
      lists.foldl
        (fun acc answers =>
          if answers.length = 1 then acc ∪ answers.toFinset else acc) ∅
    else ∅

/-- `discover_once(domain, server_ip, server_port, timeout)`: run a pick-all
resolve with an empty wrong-answer set, then scan whatever Python list came
back for single-answer decoys. -/
def discover_once (domain server_ip : String) (server_port : Int)
    (events : List NetEvent) : Except PyErr (Finset String) :=
  match (resolve_over_udp domain server_ip server_port "pick-all" ∅ events).result with
  | .error e => .error e
  | .ok responses_answers => .ok (scanWrongAnswers responses_answers)

/-- The `for domain in domains` loop of `discover`, accumulating
`wrong_answers |= discover_once(...)`; `net` gives the events the network
delivers for each probed domain. -/
def discoverLoop (server_ip : String) (server_port : Int)
    (net : String → List NetEvent) :
    List String → Finset String → Except PyErr (Finset String)
  | [], wrong_answers => .ok wrong_answers
  | domain :: domains, wrong_answers =>
    match discover_once domain server_ip server_port (net domain) with
    | .error e => .error e
    | .ok once => discoverLoop server_ip server_port net domains (wrong_answers ∪ once)

/-- `discover(domain, at, timeout)`: parse the endpoint, then fold
`discover_once` over the domain list starting from a freshly created empty
accumulator. -/
def discover (domains : List String) (at_ : String)
    (net : String → List NetEvent) : Except PyErr (Finset String) :=
  match parse_at at_ with
  | .error e => .error e
  | .ok (server_ip, server_port) =>
    discoverLoop server_ip server_port net domains ∅

/-- The result shape exactly as the spec words it, for comparison with the
code's shaping: one selected response gives its flat address list, several
give one address list per response in order, none gives the empty list. -/
def specResultShape : List Response → ResolveResult
  | [r] => mkFlat (list_ipv4_addresses r)
  | [] => .pyEmptyList
  | rs => .nested (rs.map list_ipv4_addresses)

/-- A domain's contribution to the wrong-answer set exactly as the spec words
it: if at least one collected response has more than one address, the union of
the single addresses of the responses with exactly one address, otherwise
nothing. -/
def specDomainContribution (rs : List Response) : Finset String :=
  if rs.any (fun r => 1 < (list_ipv4_addresses r).length) then
    rs.foldl
      (fun acc r =>
        match list_ipv4_addresses r with
        | [a] => acc ∪ {a}
        | _ => acc) ∅
  else ∅

/-- Example response carrying the single A answer 1.1.1.1. -/
def R1ex : Response := { id := 7, an := [{ type := DNS_A, rdata := 16843009 }] }

/-- Example response carrying the single A answer 2.2.2.2. -/
def R2ex : Response := { id := 7, an := [{ type := DNS_A, rdata := 33686018 }] }

/-- Example response carrying the two A answers 2.2.2.2 and 3.3.3.3. -/
def R23ex : Response :=
  { id := 7, an := [{ type := DNS_A, rdata := 33686018 }, { type := DNS_A, rdata := 50529027 }] }

/-- Example response carrying the single A answer 9.9.9.9. -/
def R9ex : Response := { id := 3, an := [{ type := DNS_A, rdata := 151587081 }] }

/-- Example response carrying the two A answers 9.9.9.9 and 8.8.8.8. -/
def R98ex : Response :=
  { id := 3, an := [{ type := DNS_A, rdata := 151587081 }, { type := DNS_A, rdata := 134744072 }] }

/-- Example response with one answer record that is not of address type, so
its extracted address list is empty. -/
def R0ex : Response := { id := 7, an := [{ type := 16, rdata := 0 }] }

/-- The five strategy values `pick_responses` recognizes. -/
def knownStrategies : List String :=
  ["pick-first", "pick-later", "pick-right", "pick-right-later", "pick-all"]

example : inet_ntoa 16843009 = "1.1.1.1" := by decide
example : list_ipv4_addresses R23ex = ["2.2.2.2", "3.3.3.3"] := by decide
example : list_ipv4_addresses R0ex = [] := by decide
example : pick_responses [.recv R1ex, .recv R2ex] "pick-later" ∅ = .ok (.list [R2ex]) := by decide
example : (resolve_over_udp "d" "8.8.8.8" 53 "pick-first" ∅ [.recv R1ex]).result =
    .error .typeError := by decide
example : parse_at "8.8.8.8:53" = .ok ("8.8.8.8", 53) := by decide
example : parse_at "8.8.8.8" = .ok ("8.8.8.8", 53) := by decide
example : parse_at "::1" = .error (.valueError "too many values to unpack") := by decide
example : parse_at "h:x" = .error (.valueError "invalid literal for int() with base 10") := by decide
example : discover ["d"] "8.8.8.8:53" (fun _ => [.recv R9ex, .recv R98ex]) =
    .ok {"9.9.9.9"} := by decide
example : discover ["d"] "8.8.8.8:53" (fun _ => [.recv R9ex, .recv R9ex]) =
    .ok ∅ := by decide

/-! ## Helper lemmas -/

/-- Every dotted-quad string produced by `inet_ntoa` has length greater than
one (it contains three dots). -/
theorem inet_ntoa_length (n : Nat) : 1 < (inet_ntoa n).length := by
  have hdot : (".").length = 1 := rfl
  unfold inet_ntoa
  simp only [String.length_append, hdot]
  omega

/-- No address string that `list_ipv4_addresses` extracts has length one. -/
theorem length_ne_one_of_mem_list_ipv4 (r : Response) (s : String)
    (h : s ∈ list_ipv4_addresses r) : s.length ≠ 1 := by
  simp only [list_ipv4_addresses, List.mem_map] at h
  obtain ⟨a, -, rfl⟩ := h
  have := inet_ntoa_length a.rdata
  omega

/-- The pick-all arm appends each received response to the accumulator, so the
loop returns the accumulator followed by the deliveries in arrival order. -/
theorem pickAll_loop (w : Finset String) (rs : List Response) :
    ∀ acc, pickLoop "pick-all" w (rs.map NetEvent.recv) acc = .ok (.list (acc ++ rs)) := by
  induction rs with
  | nil => intro acc; simp [pickLoop]
  | cons r rs ih =>
    intro acc
    simp [pickLoop, ih, List.append_assoc]

/-- `pick_responses` in pick-all mode returns exactly the delivered responses
in arrival order. -/
theorem pick_responses_pick_all (w : Finset String) (rs : List Response) :
    pick_responses (rs.map NetEvent.recv) "pick-all" w = .ok (.list rs) := by
  unfold pick_responses
  simpa using pickAll_loop w rs []

/-- Unfolding of the `result` field of `resolve_over_udp`. -/
theorem resolve_over_udp_result (domain server_ip : String) (server_port : Int)
    (strategy : String) (w : Finset String) (events : List NetEvent) :
    (resolve_over_udp domain server_ip server_port strategy w events).result =
      match pick_responses events strategy w with
      | .error e => .error e
      | .ok picked => shapeResult picked := rfl

/-- On a list of responses the shaping of `resolve_over_udp` computes exactly
the shape the spec describes. -/
theorem shapeResult_list (rs : List Response) :
    shapeResult (.list rs) = .ok (specResultShape rs) := by
  match rs with
  | [] => rfl
  | [r] => rfl
  | r1 :: r2 :: rest => rfl

/-- A fold of the flat-list scan over strings none of which has length one
leaves the accumulator unchanged. -/
theorem foldl_flat_const : ∀ (addrs : List String), (∀ s ∈ addrs, s.length ≠ 1) →
    ∀ acc : Finset String,
      addrs.foldl
        (fun acc s =>
          if s.length = 1 then acc ∪ (s.toList.map Char.toString).toFinset else acc) acc = acc
  | [], _, acc => rfl
  | s :: ss, h, acc => by
    simp only [List.foldl_cons]
    rw [if_neg (h s (by simp))]
    exact foldl_flat_const ss (fun t ht => h t (by simp [ht])) acc

/-- The nested-list scan over the per-response address lists agrees with the
spec-side accumulation over the responses themselves. -/
theorem foldl_nested_eq : ∀ (rs : List Response) (acc : Finset String),
    (rs.map list_ipv4_addresses).foldl
        (fun acc answers => if answers.length = 1 then acc ∪ answers.toFinset else acc) acc =
      rs.foldl
        (fun acc r =>
          match list_ipv4_addresses r with
          | [a] => acc ∪ {a}
          | _ => acc) acc
  | [], acc => rfl
  | r :: rs, acc => by
    simp only [List.map_cons, List.foldl_cons]
    have hstep : (if (list_ipv4_addresses r).length = 1
          then acc ∪ (list_ipv4_addresses r).toFinset else acc) =
        (match list_ipv4_addresses r with
          | [a] => acc ∪ {a}
          | _ => acc) := by
      cases hh : list_ipv4_addresses r with
      | nil => simp
      | cons a tl =>
        cases tl with
        | nil => simp
        | cons b tl2 => simp
    rw [hstep]
    exact foldl_nested_eq rs _

/-- The multi-address test commutes with extracting each response's address
list. -/
theorem any_map_length (rs : List Response) :
    (rs.map list_ipv4_addresses).any (fun answers => 1 < answers.length) =
      rs.any (fun r => 1 < (list_ipv4_addresses r).length) := by
  induction rs with
  | nil => rfl
  | cons r rs ih => simp [ih]

/-- A single collected response contributes nothing under the spec's rule. -/
theorem specDomainContribution_singleton (r : Response) :
    specDomainContribution [r] = ∅ := by
  unfold specDomainContribution
  cases hh : list_ipv4_addresses r with
  | nil => simp [hh]
  | cons a tl =>
    cases tl with
    | nil => simp [hh]
    | cons b tl2 =>
      have hcond : ([r].any (fun r => 1 < (list_ipv4_addresses r).length)) = true := by
        simp [hh]
      rw [if_pos hcond]
      simp only [List.foldl_cons, List.foldl_nil, hh]

/-- The scan of `discover_once` over a flat list of extracted addresses
collects nothing, because no dotted-quad string has length one. -/
theorem scan_mkFlat (r : Response) :
    scanWrongAnswers (mkFlat (list_ipv4_addresses r)) = ∅ := by
  cases hh : list_ipv4_addresses r with
  | nil => rfl
  | cons a tl =>
    show scanWrongAnswers (.flat (a :: tl)) = ∅
    simp only [scanWrongAnswers]
    rw [foldl_flat_const (a :: tl) (fun s hs => length_ne_one_of_mem_list_ipv4 r s (hh ▸ hs)) ∅]
    exact ite_self ∅

/-- The scan of `discover_once` over a nested list of address lists computes
exactly the spec's per-domain contribution. -/
theorem scan_nested (rs : List Response) :
    scanWrongAnswers (.nested (rs.map list_ipv4_addresses)) = specDomainContribution rs := by
  simp only [scanWrongAnswers, specDomainContribution]
  rw [any_map_length, foldl_nested_eq]

/-- `discover_once` on the responses delivered for one domain computes the
spec's per-domain contribution. -/
theorem discover_once_spec (domain server_ip : String) (server_port : Int)
    (rs : List Response) :
    discover_once domain server_ip server_port (rs.map NetEvent.recv) =
      .ok (specDomainContribution rs) := by
  unfold discover_once
  rw [resolve_over_udp_result, pick_responses_pick_all]
  cases rs with
  | nil => rfl
  | cons r tl =>
    cases tl with
    | nil =>
      show Except.ok (scanWrongAnswers (mkFlat (list_ipv4_addresses r))) = _
      rw [scan_mkFlat, specDomainContribution_singleton]
    | cons r2 rest =>
      show Except.ok (scanWrongAnswers (.nested ((r :: r2 :: rest).map list_ipv4_addresses))) = _
      rw [scan_nested]

/-- The domain loop of `discover` folds the per-domain contributions into the
accumulator. -/
theorem discoverLoop_spec (server_ip : String) (server_port : Int)
    (netR : String → List Response) (doms : List String) :
    ∀ acc, discoverLoop server_ip server_port (fun d => (netR d).map NetEvent.recv) doms acc =
      .ok (doms.foldl (fun acc d => acc ∪ specDomainContribution (netR d)) acc) := by
  induction doms with
  | nil => intro acc; rfl
  | cons d ds ih =>
    intro acc
    simp only [discoverLoop, discover_once_spec, List.foldl_cons]
    exact ih _

/-- A list without the separator splits into the single field holding the
whole list. -/
theorem splitOnChar_not_mem (c : Char) : ∀ (l : List Char), c ∉ l → splitOnChar c l = [l]
  | [], _ => rfl
  | x :: xs, h => by
    have hx : ¬(x = c) := fun e => h (e ▸ List.mem_cons_self x xs)
    simp only [splitOnChar]
    rw [if_neg hx, splitOnChar_not_mem c xs (fun hm => h (List.mem_cons_of_mem x hm))]

/-- Splitting at the first separator occurrence peels off the separator-free
prefix as the first field. -/
theorem splitOnChar_append (c : Char) : ∀ (a b : List Char), c ∉ a →
    splitOnChar c (a ++ c :: b) = a :: splitOnChar c b
  | [], b, _ => by simp [splitOnChar]
  | x :: a, b, h => by
    have hx : ¬(x = c) := fun e => h (e ▸ List.mem_cons_self x a)
    show splitOnChar c (x :: (a ++ c :: b)) = (x :: a) :: splitOnChar c b
    simp only [splitOnChar]
    rw [if_neg hx, splitOnChar_append c a b (fun hm => h (List.mem_cons_of_mem x hm))]

/-- A split has one more field than the number of separator occurrences. -/
theorem splitOnChar_length (c : Char) : ∀ (l : List Char),
    (splitOnChar c l).length = l.count c + 1
  | [] => rfl
  | x :: xs => by
    simp only [splitOnChar]
    by_cases hx : x = c
    · rw [if_pos hx]
      simp [List.count_cons, hx, splitOnChar_length c xs]
    · rw [if_neg hx]
      have hrec := splitOnChar_length c xs
      cases hsp : splitOnChar c xs with
      | nil => rw [hsp] at hrec; simp at hrec
      | cons y ys =>
        rw [hsp] at hrec
        simp only [List.length_cons] at hrec ⊢
        simp [List.count_cons, hx, ← hrec]

/-- The character list of `a ++ ":" ++ b`. -/
theorem toList_append_colon (a b : String) :
    (a ++ ":" ++ b).toList = a.toList ++ ':' :: b.toList := by
  show (a ++ ":" ++ b).data = a.data ++ ':' :: b.data
  rw [String.data_append, String.data_append]
  show (a.data ++ [':']) ++ b.data = _
  simp [List.append_assoc]

/-- `a ++ ":" ++ b` contains a colon. -/
theorem colon_mem_append (a b : String) : ':' ∈ (a ++ ":" ++ b).toList := by
  rw [toList_append_colon]
  simp

/-- Python split of a colon-free string. -/
theorem pySplit_no_colon (s : String) (h : ':' ∉ s.toList) : pySplit s ':' = [s] := by
  unfold pySplit
  rw [splitOnChar_not_mem ':' s.toList h]
  rfl

/-- Python split of `a ++ ":" ++ b` for colon-free `a` and `b`. -/
theorem pySplit_append (a b : String) (ha : ':' ∉ a.toList) (hb : ':' ∉ b.toList) :
    pySplit (a ++ ":" ++ b) ':' = [a, b] := by
  unfold pySplit
  rw [toList_append_colon, splitOnChar_append ':' a.toList b.toList ha,
    splitOnChar_not_mem ':' b.toList hb]
  rfl

/-- A colon-free endpoint string parses to itself with default port 53. -/
theorem parse_at_no_colon (s : String) (h : ':' ∉ s.toList) :
    parse_at s = .ok (s, 53) := by
  unfold parse_at
  rw [if_neg h]

/-- An endpoint string with exactly one colon and an integer port suffix
parses into prefix and port value. -/
theorem parse_at_single_colon (a b : String) (p : Int)
    (ha : ':' ∉ a.toList) (hb : ':' ∉ b.toList) (hp : pyToInt b = some p) :
    parse_at (a ++ ":" ++ b) = .ok (a, p) := by
  unfold parse_at
  rw [if_pos (colon_mem_append a b), pySplit_append a b ha hb]
  show (match pyToInt b with
    | some port => Except.ok (a, port)
    | none => Except.error (PyErr.valueError "invalid literal for int() with base 10")) = _
  rw [hp]

/-- An endpoint string with exactly one colon and a non-integer port suffix
raises from `int()`. -/
theorem parse_at_bad_port (a b : String)
    (ha : ':' ∉ a.toList) (hb : ':' ∉ b.toList) (hp : pyToInt b = none) :
    parse_at (a ++ ":" ++ b) = .error (.valueError "invalid literal for int() with base 10") := by
  unfold parse_at
  rw [if_pos (colon_mem_append a b), pySplit_append a b ha hb]
  show (match pyToInt b with
    | some port => Except.ok (a, port)
    | none => Except.error (PyErr.valueError "invalid literal for int() with base 10")) = _
  rw [hp]

/-- An endpoint string with two or more colons raises from tuple unpacking. -/
theorem parse_at_multi_colon (s : String) (h : 2 ≤ s.toList.count ':') :
    parse_at s = .error (.valueError "too many values to unpack") := by
  have hmem : ':' ∈ s.toList := List.count_pos_iff.mp (by omega)
  have hlen : 3 ≤ (pySplit s ':').length := by
    unfold pySplit
    rw [List.length_map, splitOnChar_length]
    omega
  unfold parse_at
  rw [if_pos hmem]
  cases hsp : pySplit s ':' with
  | nil => rfl
  | cons x t1 =>
    cases t1 with
    | nil => rfl
    | cons y t2 =>
      cases t2 with
      | nil =>
        exfalso
        rw [hsp] at hlen
        simp only [List.length_cons, List.length_nil] at hlen
        omega
      | cons z t3 => rfl

/-! ## Claim theorems -/

/-- C1: with strategy pick-first, the collector returns on the first arriving
response without examining any later arrival — but it returns the bare
decoded `Response` object, so the shaping code of `resolve_over_udp`
(written for a list) misreads its packet `len()` and raises `TypeError`
while iterating it, instead of returning R1's address list. -/
theorem pick_first_returns_bare_response_and_resolve_raises :
    (∀ (rest : List NetEvent) (w : Finset String),
        pick_responses (NetEvent.recv R1ex :: rest) "pick-first" w = .ok (.bare R1ex)) ∧
    (resolve_over_udp "twitter.com" "8.8.8.8" 53 "pick-first" ∅
        [NetEvent.recv R1ex, NetEvent.recv R2ex]).result = .error .typeError :=
  ⟨fun rest w => rfl, by decide⟩

/-- C2 counterexample: with pick-first, exactly one response is selected (the
collector returns it), yet the resolve result is a `TypeError`, not that
response's flat address list. -/
theorem one_selected_response_shape_counterexample :
    pick_responses [NetEvent.recv R1ex] "pick-first" ∅ = .ok (.bare R1ex) ∧
    (resolve_over_udp "twitter.com" "8.8.8.8" 53 "pick-first" ∅
        [NetEvent.recv R1ex]).result ≠ .ok (specResultShape [R1ex]) := by
  decide

/-- C2 amended: whenever the collector hands the shaping code a list of
responses (pick-later, pick-right-later, pick-all, and every run with no
early return, including the no-response case), the result shape is determined
by the list's length exactly as the spec describes: one response gives its
flat address list, several give one address list per response in order, none
gives the empty list. -/
theorem shape_determined_for_list_outcomes (domain server_ip : String) (server_port : Int)
    (strategy : String) (w : Finset String) (events : List NetEvent) (rs : List Response)
    (h : pick_responses events strategy w = .ok (.list rs)) :
    (resolve_over_udp domain server_ip server_port strategy w events).result =
      .ok (specResultShape rs) := by
  rw [resolve_over_udp_result, h]
  show shapeResult (.list rs) = _
  rw [shapeResult_list]

theorem shape_determined_for_list_outcomes_witness :
    pick_responses [NetEvent.recv R1ex, NetEvent.recv R2ex] "pick-later" ∅ =
      .ok (.list [R2ex]) ∧
    (resolve_over_udp "twitter.com" "8.8.8.8" 53 "pick-later" ∅
        [NetEvent.recv R1ex, NetEvent.recv R2ex]).result = .ok (specResultShape [R2ex]) :=
  ⟨by decide,
    shape_determined_for_list_outcomes "twitter.com" "8.8.8.8" 53 "pick-later" ∅
      [NetEvent.recv R1ex, NetEvent.recv R2ex] [R2ex] (by decide)⟩

/-- C3 counterexample: with an unrecognized strategy and no arriving response,
`resolve_over_udp` sends the query and returns the empty result normally — no
"unsupported strategy" error is ever raised, contradicting fail-fast
validation before I/O. -/
theorem unsupported_strategy_counterexample :
    "pick-wrong" ∉ knownStrategies ∧
    (resolve_over_udp "twitter.com" "8.8.8.8" 53 "pick-wrong" ∅ []).querySent = true ∧
    (resolve_over_udp "twitter.com" "8.8.8.8" 53 "pick-wrong" ∅ []).result =
      .ok .pyEmptyList :=
  ⟨by decide, rfl, rfl⟩

/-- C3 amended: an unrecognized strategy is only detected lazily: the query is
always sent first; if a response then arrives before the deadline, the
collector raises "unsupported strategy" on that first response; if none
arrives, the call returns the empty result without any error. -/
theorem unsupported_strategy_checked_lazily (strategy : String)
    (h : strategy ∉ knownStrategies) :
    ∀ (domain server_ip : String) (server_port : Int) (w : Finset String),
      (∀ events, (resolve_over_udp domain server_ip server_port strategy w events).querySent
        = true) ∧
      ((resolve_over_udp domain server_ip server_port strategy w []).result =
        .ok .pyEmptyList) ∧
      (∀ r rest,
        (resolve_over_udp domain server_ip server_port strategy w
            (NetEvent.recv r :: rest)).result =
          .error (.exception ("unsupported strategy: " ++ strategy))) := by
  intro domain server_ip server_port w
  simp only [knownStrategies, List.mem_cons, List.not_mem_nil, or_false, not_or] at h
  obtain ⟨h1, h2, h3, h4, h5⟩ := h
  refine ⟨fun events => rfl, rfl, fun r rest => ?_⟩
  rw [resolve_over_udp_result]
  unfold pick_responses
  simp only [pickLoop]
  rw [if_neg (fun e => h1 e.symm), if_neg (fun e => h2 e.symm), if_neg (fun e => h3 e.symm),
    if_neg (fun e => h4 e.symm), if_neg (fun e => h5 e.symm)]

theorem unsupported_strategy_checked_lazily_witness :
    "pick-wrong" ∉ knownStrategies ∧
    (resolve_over_udp "twitter.com" "8.8.8.8" 53 "pick-wrong" ∅
        [NetEvent.recv R1ex]).result =
      .error (.exception ("unsupported strategy: " ++ "pick-wrong")) :=
  ⟨by decide,
    (unsupported_strategy_checked_lazily "pick-wrong" (by decide)
      "twitter.com" "8.8.8.8" 53 ∅).2.2 R1ex []⟩

/-- C4: the forged-response classifier returns false on an empty address-type
answer list, true whenever more than one address is present (whatever the
wrong-answer set contains), and on exactly one address returns true iff that
address is not a known wrong answer. -/
theorem is_right_response_classification (r : Response) (w : Finset String) :
    (list_ipv4_addresses r = [] → is_right_response r w = false) ∧
    (1 < (list_ipv4_addresses r).length → is_right_response r w = true) ∧
    (∀ a, list_ipv4_addresses r = [a] → (is_right_response r w = true ↔ a ∉ w)) := by
  refine ⟨fun h => ?_, fun h => ?_, fun a h => ?_⟩
  · simp [is_right_response, h]
  · have hne : ¬((list_ipv4_addresses r).isEmpty = true) := by
      cases hh : list_ipv4_addresses r with
      | nil => rw [hh] at h; simp at h
      | cons x t => simp
    simp only [is_right_response]
    rw [if_neg hne, if_pos h]
  · simp [is_right_response, h]

theorem is_right_response_classification_witness :
    (list_ipv4_addresses R0ex = [] ∧ is_right_response R0ex {"1.1.1.1"} = false) ∧
    (1 < (list_ipv4_addresses R23ex).length ∧
      is_right_response R23ex {"2.2.2.2", "3.3.3.3"} = true) ∧
    (list_ipv4_addresses R1ex = ["1.1.1.1"] ∧
      (is_right_response R1ex {"1.1.1.1"} = true ↔
        "1.1.1.1" ∉ ({"1.1.1.1"} : Finset String))) :=
  ⟨⟨by decide, (is_right_response_classification R0ex {"1.1.1.1"}).1 (by decide)⟩,
   ⟨by decide, (is_right_response_classification R23ex {"2.2.2.2", "3.3.3.3"}).2.1 (by decide)⟩,
   ⟨by decide, (is_right_response_classification R1ex {"1.1.1.1"}).2.2 "1.1.1.1" (by decide)⟩⟩

/-- C5: for every domain the discovery scan contributes exactly the union of
the single addresses of the collected single-address responses when some
collected response has more than one address, and nothing otherwise; the
final result of `discover` is the union of the per-domain contributions. -/
theorem discover_union_of_contributions (doms : List String) (at_ server_ip : String)
    (server_port : Int) (netR : String → List Response)
    (h : parse_at at_ = .ok (server_ip, server_port)) :
    discover doms at_ (fun d => (netR d).map NetEvent.recv) =
      .ok (doms.foldl (fun acc d => acc ∪ specDomainContribution (netR d)) ∅) := by
  unfold discover
  rw [h]
  exact discoverLoop_spec server_ip server_port netR doms ∅

theorem discover_union_of_contributions_witness :
    parse_at "8.8.8.8:53" = .ok ("8.8.8.8", 53) ∧
    discover ["twitter.com", "example.com"] "8.8.8.8:53"
        (fun d => ((fun d => if d = "twitter.com" then [R9ex, R98ex] else [R9ex]) d).map
          NetEvent.recv) =
      .ok (["twitter.com", "example.com"].foldl
        (fun acc d =>
          acc ∪ specDomainContribution
            ((fun d => if d = "twitter.com" then [R9ex, R98ex] else [R9ex]) d)) ∅) :=
  ⟨by decide,
    discover_union_of_contributions ["twitter.com", "example.com"] "8.8.8.8:53" "8.8.8.8" 53
      (fun d => if d = "twitter.com" then [R9ex, R98ex] else [R9ex]) (by decide)⟩

/-- C6: for each of the five recognized strategies, when no response arrives
before the deadline the collector returns the empty list and the resolve
result is the empty Python list — never an error. -/
theorem no_response_yields_empty (strategy : String) (w : Finset String)
    (h : strategy ∈ knownStrategies) :
    pick_responses [] strategy w = .ok (.list []) ∧
    ∀ (domain server_ip : String) (server_port : Int),
      (resolve_over_udp domain server_ip server_port strategy w []).result =
        .ok .pyEmptyList :=
  ⟨rfl, fun _ _ _ => rfl⟩

theorem no_response_yields_empty_witness :
    "pick-all" ∈ knownStrategies ∧
    pick_responses [] "pick-all" ∅ = .ok (.list []) ∧
    (resolve_over_udp "twitter.com" "8.8.8.8" 53 "pick-all" ∅ []).result =
      .ok .pyEmptyList :=
  ⟨by decide, (no_response_yields_empty "pick-all" ∅ (by decide)).1,
    (no_response_yields_empty "pick-all" ∅ (by decide)).2 "twitter.com" "8.8.8.8" 53⟩

/-- C7: with strategy pick-later, each arrival replaces the held candidate
(the accumulator [r1] becomes [r2] on receipt of r2), so after R1 then R2 the
collector returns R2 alone and the resolve result is R2's flat address
list. -/
theorem pick_later_returns_last_response (r1 r2 : Response) (w : Finset String)
    (h1 : list_ipv4_addresses r1 = ["1.1.1.1"])
    (h2 : list_ipv4_addresses r2 = ["2.2.2.2"]) :
    pickLoop "pick-later" w [NetEvent.recv r2] [r1] = .ok (.list [r2]) ∧
    pick_responses [NetEvent.recv r1, NetEvent.recv r2] "pick-later" w = .ok (.list [r2]) ∧
    (resolve_over_udp "twitter.com" "8.8.8.8" 53 "pick-later" w
        [NetEvent.recv r1, NetEvent.recv r2]).result = .ok (.flat ["2.2.2.2"]) := by
  refine ⟨rfl, rfl, ?_⟩
  rw [resolve_over_udp_result]
  show shapeResult (.list [r2]) = _
  show Except.ok (mkFlat (list_ipv4_addresses r2)) = _
  rw [h2]
  rfl

theorem pick_later_returns_last_response_witness :
    list_ipv4_addresses R1ex = ["1.1.1.1"] ∧ list_ipv4_addresses R2ex = ["2.2.2.2"] ∧
    (resolve_over_udp "twitter.com" "8.8.8.8" 53 "pick-later" ∅
        [NetEvent.recv R1ex, NetEvent.recv R2ex]).result = .ok (.flat ["2.2.2.2"]) :=
  ⟨by decide, by decide,
    (pick_later_returns_last_response R1ex R2ex ∅ (by decide) (by decide)).2.2⟩

/-- C8: pick-all accumulates every received response in arrival order, and on
the three-response example the resolve result is the list of address lists in
arrival order. -/
theorem pick_all_arrival_order :
    (∀ (rs : List Response) (w : Finset String),
        pick_responses (rs.map NetEvent.recv) "pick-all" w = .ok (.list rs)) ∧
    (resolve_over_udp "twitter.com" "8.8.8.8" 53 "pick-all" ∅
        [NetEvent.recv R1ex, NetEvent.recv R23ex, NetEvent.recv R1ex]).result =
      .ok (.nested [["1.1.1.1"], ["2.2.2.2", "3.3.3.3"], ["1.1.1.1"]]) :=
  ⟨fun rs w => pick_responses_pick_all w rs, by decide⟩

/-- C9: `discover` is a function of its inputs and of the responses the
network delivers only — two runs with identical domain lists, endpoint and
delivered responses produce identical wrong-answer sets, there being no
mutable state outside the accumulator created on each call. -/
theorem discover_depends_only_on_inputs (doms : List String) (at_ : String)
    (net1 net2 : String → List NetEvent) (h : ∀ d, net1 d = net2 d) :
    discover doms at_ net1 = discover doms at_ net2 := by
  rw [funext h]

theorem discover_depends_only_on_inputs_witness :
    discover ["twitter.com"] "8.8.8.8:53" (fun _ => [NetEvent.recv R9ex]) =
      discover ["twitter.com"] "8.8.8.8:53" (fun _ => [NetEvent.recv R9ex] ++ []) :=
  discover_depends_only_on_inputs ["twitter.com"] "8.8.8.8:53"
    (fun _ => [NetEvent.recv R9ex]) (fun _ => [NetEvent.recv R9ex] ++ [])
    (fun d => by simp)

/-- C10: `parse_at` returns the whole string with default port 53 when it has
no colon; with exactly one colon it returns the prefix and the integer value
of the suffix; a non-integer port suffix or two or more colons (an IPv6
literal, say) raise `ValueError` instead. -/
theorem parse_at_cases :
    (∀ s : String, ':' ∉ s.toList → parse_at s = .ok (s, 53)) ∧
    (∀ (a b : String) (p : Int), ':' ∉ a.toList → ':' ∉ b.toList → pyToInt b = some p →
      parse_at (a ++ ":" ++ b) = .ok (a, p)) ∧
    (∀ a b : String, ':' ∉ a.toList → ':' ∉ b.toList → pyToInt b = none →
      parse_at (a ++ ":" ++ b) =
        .error (.valueError "invalid literal for int() with base 10")) ∧
    (∀ s : String, 2 ≤ s.toList.count ':' →
      parse_at s = .error (.valueError "too many values to unpack")) :=
  ⟨parse_at_no_colon,
   fun a b p ha hb hp => parse_at_single_colon a b p ha hb hp,
   fun a b ha hb hp => parse_at_bad_port a b ha hb hp,
   parse_at_multi_colon⟩

theorem parse_at_cases_witness :
    parse_at "8.8.8.8" = .ok ("8.8.8.8", 53) ∧
    parse_at ("8.8.8.8" ++ ":" ++ "53") = .ok ("8.8.8.8", 53) ∧
    parse_at ("dns" ++ ":" ++ "x") =
      .error (.valueError "invalid literal for int() with base 10") ∧
    parse_at "::1" = .error (.valueError "too many values to unpack") :=
  ⟨parse_at_cases.1 "8.8.8.8" (by decide),
   parse_at_cases.2.1 "8.8.8.8" "53" 53 (by decide) (by decide) (by decide),
   parse_at_cases.2.2.1 "dns" "x" (by decide) (by decide) (by decide),
   parse_at_cases.2.2.2 "::1" (by decide)⟩
